import Mathlib

/-!
Verification of the OAuth 2.1 HTTP wrapper of the ha-mcp-memory-addon
repository (`mcp-memory-service/rootfs/app/http-wrapper-oauth.js`).

The JavaScript handlers are shallowly embedded as pure Lean functions over
explicit server state.  Host-library primitives that the wrapper delegates
to (Node's `crypto.createHmac(...).digest('base64url')`, `Buffer` base64url
conversion, `JSON.stringify`/`JSON.parse`) are abstracted as a `Prims`
record; the properties of those primitives that the wrapper relies on
(base64url digests contain no `.`, base64url and JSON round-trip) are
collected in `PrimsOK`.  Request timestamps (`Date.now()`) are passed in as
an explicit millisecond clock, one sample per request, and the random
strings produced by `crypto.randomBytes(...).toString('hex')` are passed in
as explicit arguments.
-/

namespace McpOAuth

/-- A JWT payload as minted by the wrapper's token endpoint
(`accessTokenPayload` at http-wrapper-oauth.js:516-522): claims
`client_id`, `scope`, `iat`, `exp`, `sub`.  `scope` mirrors the authorize
request's optional `scope` query parameter, and `exp` is optional so that
tokens signed without an `exp` claim (relevant to the middleware's
truthiness test `payload.exp && ...`) are representable. -/
structure Payload where
  client_id : String
  scope : Option String
  iat : Nat
  exp : Option Nat
  sub : String
deriving DecidableEq, Repr

/-- Host-library primitives used by `SimpleJWT`: the keyed hash
(`crypto.createHmac('sha256', secret).update(msg).digest('base64url')`),
base64url encoding/decoding of strings (`Buffer.from(...)` conversions) and
JSON serialization of a payload object. -/
structure Prims where
  hmacB64 : String → String → String
  b64 : String → String
  unb64 : String → String
  stringifyPayload : Payload → String
  parsePayload : String → Option Payload

/-- The contracts of the host primitives that the wrapper's correctness
relies on: base64url output (including the base64url HMAC digest) never
contains the `.` separator, and both base64url and JSON serialization
round-trip. -/
structure PrimsOK (pr : Prims) : Prop where
  b64_no_dot : ∀ s, '.' ∉ (pr.b64 s).data
  hmac_no_dot : ∀ k m, '.' ∉ (pr.hmacB64 k m).data
  unb64_b64 : ∀ s, pr.unb64 (pr.b64 s) = s
  parse_stringify : ∀ p, pr.parsePayload (pr.stringifyPayload p) = some p

/-- JavaScript `str.split(sep)` for a single-character separator, on the
character list. -/
def splitOnCh (sep : Char) : List Char → List (List Char)
  | [] => [[]]
  | c :: cs =>
    if c = sep then [] :: splitOnCh sep cs
    else
      match splitOnCh sep cs with
      | [] => [[c]]
      | g :: gs => (c :: g) :: gs

/-- `token.split('.')` from `SimpleJWT.decode`. -/
def jsSplitDots (s : String) : List String :=
  (splitOnCh '.' s.data).map (fun l => String.mk l)

/-- `JSON.stringify({ alg: 'HS256', typ: 'JWT' })`, the constant JWT
header of `SimpleJWT.encode`. -/
def jwtHeaderJson : String := "\x7b\"alg\":\"HS256\",\"typ\":\"JWT\"\x7d"

/-- `SimpleJWT.encode(payload)` (http-wrapper-oauth.js:51-59):
`headerEncoded.payloadEncoded.signature` with the signature the keyed hash
of `headerEncoded ++ "." ++ payloadEncoded`. -/
def jwtEncode (pr : Prims) (secret : String) (p : Payload) : String :=
  pr.b64 jwtHeaderJson ++ "." ++ pr.b64 (pr.stringifyPayload p) ++ "." ++
    pr.hmacB64 secret (pr.b64 jwtHeaderJson ++ "." ++ pr.b64 (pr.stringifyPayload p))

/-- The ways `SimpleJWT.decode` can throw: not exactly 3 dot-separated
parts (`Invalid JWT format`), signature mismatch (`Invalid signature`), or
`JSON.parse` failing on the decoded payload. -/
inductive JwtErr where
  | invalidFormat
  | invalidSignature
  | badPayload
deriving DecidableEq, Repr

/-- `SimpleJWT.decode(token)` (http-wrapper-oauth.js:67-79): split on `.`,
require 3 parts, recompute the keyed hash, compare, then parse the
payload. -/
def jwtDecode (pr : Prims) (secret : String) (token : String) : Except JwtErr Payload :=
  match jsSplitDots token with
  | [headerEncoded, payloadEncoded, signature] =>
    if signature = pr.hmacB64 secret (headerEncoded ++ "." ++ payloadEncoded) then
      match pr.parsePayload (pr.unb64 payloadEncoded) with
      | some p => .ok p
      | none => .error .badPayload
    else .error .invalidSignature
  | _ => .error .invalidFormat

/-! ## Authentication middleware (`authenticate`, http-wrapper-oauth.js:90-121) -/

/-- The configuration surface the middleware reads: `OAUTH_ENABLED`,
`process.env.AUTH_ENABLED === 'true'`, `process.env.API_KEY` (absent when
the env var is unset) and the JWT signing secret. -/
structure AuthConfig where
  oauthEnabled : Bool
  authEnabled : Bool
  apiKey : Option String
  secret : String

/-- The request headers the middleware reads: `req.headers.authorization`
and `req.headers['x-api-key']` (absent headers are `none`). -/
structure ReqHeaders where
  authorization : Option String
  xApiKey : Option String

/-- Middleware outcome: `proceed user authMethod` models calling `next()`
with `req.user`/`req.authMethod` set as recorded, `reject status msg`
models `res.status(status).json({ error: msg })`. -/
inductive AuthResult where
  | proceed (user : Option Payload) (authMethod : Option String)
  | reject (status : Nat) (error : String)
deriving DecidableEq, Repr

/-- JavaScript truthiness of an optional header / query string value:
falsy exactly when absent or the empty string. -/
def jsTruthy : Option String → Bool
  | none => false
  | some s => decide (s ≠ "")

/-- The string value of a present header (only consulted under
`jsTruthy`). -/
def strOf : Option String → String
  | none => ""
  | some s => s

/-- `authHeader.startsWith('Bearer ')`. -/
def startsWithBearer (s : String) : Bool :=
  "Bearer ".data.isPrefixOf s.data

/-- `authHeader.substring(7)` — drop the 7 code units of `Bearer `. -/
def bearerToken (s : String) : String :=
  String.mk (s.data.drop 7)

/-- The JS expiry test `payload.exp && Date.now() / 1000 > payload.exp`:
skipped when `exp` is absent or `0` (both falsy).  `Date.now()/1000` is a
fractional number of seconds; over the rationals
`nowMs / 1000 > exp ↔ exp * 1000 < nowMs`, which is the form used here. -/
def jsExpElapsed (p : Payload) (nowMs : Nat) : Bool :=
  match p.exp with
  | none => false
  | some e => decide (e ≠ 0) && decide (e * 1000 < nowMs)

/-- Guard of the middleware's first branch:
`OAUTH_ENABLED && authHeader && authHeader.startsWith('Bearer ')`. -/
def bearerCond (cfg : AuthConfig) (hdrs : ReqHeaders) : Bool :=
  cfg.oauthEnabled && jsTruthy hdrs.authorization &&
    startsWithBearer (strOf hdrs.authorization)

/-- Guard of the middleware's second branch:
`process.env.AUTH_ENABLED === 'true' && apiKeyHeader`. -/
def apiKeyCond (cfg : AuthConfig) (hdrs : ReqHeaders) : Bool :=
  cfg.authEnabled && jsTruthy hdrs.xApiKey

/-- `apiKeyHeader !== process.env.API_KEY` is the rejection test; an unset
`API_KEY` therefore never matches a supplied header. -/
def apiKeyMatches (configured : Option String) (provided : String) : Bool :=
  match configured with
  | none => false
  | some k => decide (provided = k)

/-- The `authenticate` middleware (http-wrapper-oauth.js:90-121), branch
for branch.  The decode `try/catch` is modelled by matching on
`jwtDecode`'s `Except` result; the three rejection bodies are the
wrapper's literal strings (`Invalid token` ≙ the spec's `invalid_token`,
`Token expired` ≙ `token_expired`, `Authentication required` ≙
`authentication_required`). -/
def authenticate (cfg : AuthConfig) (pr : Prims) (hdrs : ReqHeaders)
    (nowMs : Nat) : AuthResult :=
  if bearerCond cfg hdrs then
    match jwtDecode pr cfg.secret (bearerToken (strOf hdrs.authorization)) with
    | .error _ => .reject 401 "Invalid token"
    | .ok payload =>
      if jsExpElapsed payload nowMs then .reject 401 "Token expired"
      else .proceed (some payload) (some "oauth")
  else if apiKeyCond cfg hdrs then
    if apiKeyMatches cfg.apiKey (strOf hdrs.xApiKey) then
      .proceed none (some "api_key")
    else .reject 401 "Invalid API key"
  else if !cfg.authEnabled && !cfg.oauthEnabled then
    .proceed none none
  else .reject 401 "Authentication required"

/-! ## OAuth server state: client registry and authorization code store -/

/-- `Map.get` on a JS `Map` keyed by strings, modelled as an association
list (first matching key wins; JS maps hold at most one entry per key). -/
def mapGet {α : Type} (m : List (String × α)) (k : String) : Option α :=
  match m with
  | [] => none
  | (k', v) :: rest => if k' = k then some v else mapGet rest k

/-- `Map.set`: replace the entry for `k` if present, else append. -/
def mapSet {α : Type} (m : List (String × α)) (k : String) (v : α) :
    List (String × α) :=
  match m with
  | [] => [(k, v)]
  | (k', v') :: rest => if k' = k then (k, v) :: rest else (k', v') :: mapSet rest k v

/-- `Map.delete`: remove the entry for `k` (all matches; a JS map holds at
most one). -/
def mapDelete {α : Type} (m : List (String × α)) (k : String) :
    List (String × α) :=
  m.filter (fun kv => decide (kv.1 ≠ k))

/-- A registered OAuth client as built by `POST /oauth/register`
(http-wrapper-oauth.js:426-436).  `client_name` is `Option` because the
request field has no destructuring default; `created_at` is the
`new Date()` millisecond timestamp whose ISO rendering is not needed by
any claim. -/
structure Client where
  client_id : String
  client_secret : String
  client_name : Option String
  redirect_uris : List String
  grant_types : List String
  response_types : List String
  scope : String
  token_endpoint_auth_method : String
  created_at : Nat
deriving DecidableEq, Repr

/-- The grant context stored under an authorization code
(http-wrapper-oauth.js:470-475): the raw `client_id`, `redirect_uri` and
`scope` query values plus the absolute expiry timestamp in ms. -/
structure AuthCodeData where
  client_id : Option String
  redirect_uri : Option String
  scope : Option String
  expires_at : Nat
deriving DecidableEq, Repr

/-- The process-wide OAuth state: the `oauthClients` and
`authorizationCodes` maps (http-wrapper-oauth.js:30-31). -/
structure ServerState where
  oauthClients : List (String × Client)
  authorizationCodes : List (String × AuthCodeData)
deriving DecidableEq, Repr

/-! ## `POST /oauth/register` (http-wrapper-oauth.js:419-446) -/

/-- The registration request body, after `express.json`: every field
optional, with the handler's destructuring defaults applied in
`registerHandler`. -/
structure RegisterReq where
  client_name : Option String
  redirect_uris : Option (List String)
  grant_types : Option (List String)
  response_types : Option (List String)
  scope : Option String

/-- The register handler.  `idHex` stands for
`crypto.randomBytes(8).toString('hex')` and `secretHex` for
`crypto.randomBytes(16).toString('hex')`.  The handler performs no
validation: it always answers 200 with the full created record (secret
included) and inserts it into the registry. -/
def registerHandler (st : ServerState) (req : RegisterReq) (nowMs : Nat)
    (idHex secretHex : String) : Client × ServerState :=
  let client : Client :=
    { client_id := "mcp_client_" ++ idHex
      client_secret := secretHex
      client_name := req.client_name
      redirect_uris := req.redirect_uris.getD []
      grant_types := req.grant_types.getD ["authorization_code"]
      response_types := req.response_types.getD ["code"]
      scope := req.scope.getD "read write"
      token_endpoint_auth_method := "client_secret_basic"
      created_at := nowMs }
  (client, { st with oauthClients := mapSet st.oauthClients client.client_id client })

/-! ## `GET /oauth/authorize` (http-wrapper-oauth.js:452-486) -/

/-- The authorize query parameters (all optional). -/
structure AuthorizeReq where
  client_id : Option String
  response_type : Option String
  redirect_uri : Option String
  scope : Option String
  state : Option String

/-- Authorize outcome: `err status body` models
`res.status(status).json({ error: body })`, `redirect base params` models
`res.redirect` to `base` with each of `params` set on its query string
via `searchParams.set`. -/
inductive AuthorizeResult where
  | err (status : Nat) (error : String)
  | redirect (base : String) (params : List (String × String))
deriving DecidableEq, Repr

/-- The authorize handler.  `authCodeHex` stands for
`crypto.randomBytes(16).toString('hex')`; `urlOk uri` models whether
`new URL(uri)` succeeds (a host primitive; `new URL(undefined)` always
throws, so a missing `redirect_uri` unconditionally takes the catch
branch).  Note the code is stored *before* the URL is parsed, so the
catch branch leaves the freshly stored code in place. -/
def authorizeHandler (st : ServerState) (req : AuthorizeReq) (nowMs : Nat)
    (codeTtlMin : Nat) (authCodeHex : String) (urlOk : String → Bool) :
    AuthorizeResult × ServerState :=
  if req.response_type ≠ some "code" then
    (.err 400 "unsupported_response_type", st)
  else
    match req.client_id with
    | none => (.err 400 "invalid_client", st)
    | some cid =>
      match mapGet st.oauthClients cid with
      | none => (.err 400 "invalid_client", st)
      | some _client =>
        let grant : AuthCodeData :=
          { client_id := req.client_id
            redirect_uri := req.redirect_uri
            scope := req.scope
            expires_at := nowMs + codeTtlMin * 60 * 1000 }
        let st' := { st with
          authorizationCodes := mapSet st.authorizationCodes authCodeHex grant }
        match req.redirect_uri with
        | none => (.err 400 "Invalid authorization request", st')
        | some uri =>
          if urlOk uri then
            (.redirect uri ([("code", authCodeHex)] ++
              (match req.state with
               | some s => if s ≠ "" then [("state", s)] else []
               | none => [])), st')
          else (.err 400 "Invalid authorization request", st')

/-! ## `POST /oauth/token` (http-wrapper-oauth.js:492-539) -/

/-- The token request body (all fields optional). -/
structure TokenReq where
  grant_type : Option String
  code : Option String
  redirect_uri : Option String
  client_id : Option String
  client_secret : Option String

/-- The successful token response body. -/
structure TokenResponse where
  access_token : String
  token_type : String
  expires_in : Nat
  scope : Option String
deriving DecidableEq, Repr

/-- Token endpoint outcome. -/
inductive TokenResult where
  | err (status : Nat) (error : String)
  | ok (resp : TokenResponse)
deriving DecidableEq, Repr

/-- The token handler.  `accessTtlMin` is
`OAUTH_ACCESS_TOKEN_EXPIRE_MINUTES`; `nowMs` is the single `Date.now()`
sample for the request (the source samples the clock twice on the success
path, within the same tick).  Missing `code`/`client_id` model
`Map.get(undefined)` returning `undefined`. -/
def tokenHandler (pr : Prims) (secret : String) (accessTtlMin : Nat)
    (st : ServerState) (req : TokenReq) (nowMs : Nat) :
    TokenResult × ServerState :=
  if req.grant_type ≠ some "authorization_code" then
    (.err 400 "unsupported_grant_type", st)
  else
    match req.code with
    | none => (.err 400 "invalid_grant", st)
    | some code =>
      match mapGet st.authorizationCodes code with
      | none => (.err 400 "invalid_grant", st)
      | some authCodeData =>
        if authCodeData.expires_at < nowMs then
          (.err 400 "invalid_grant",
            { st with authorizationCodes := mapDelete st.authorizationCodes code })
        else
          match req.client_id with
          | none => (.err 400 "invalid_client", st)
          | some cid =>
            match mapGet st.oauthClients cid with
            | none => (.err 400 "invalid_client", st)
            | some client =>
              if req.client_secret ≠ some client.client_secret then
                (.err 400 "invalid_client", st)
              else
                let iat := nowMs / 1000
                let payload : Payload :=
                  { client_id := cid
                    scope := authCodeData.scope
                    iat := iat
                    exp := some (iat + accessTtlMin * 60)
                    sub := cid }
                (.ok
                  { access_token := jwtEncode pr secret payload
                    token_type := "Bearer"
                    expires_in := accessTtlMin * 60
                    scope := authCodeData.scope },
                  { st with
                    authorizationCodes := mapDelete st.authorizationCodes code })

/-! ## `GET /oauth/clients/:clientId` (http-wrapper-oauth.js:545-554) -/

/-- A JSON value as it appears in the client record's response body. -/
inductive Jv where
  | str (s : String)
  | num (n : Nat)
  | arr (l : List String)
  | undef
deriving DecidableEq, Repr

/-- The stored client object as a JSON field list, in the insertion order
of the object literal at http-wrapper-oauth.js:426-436. -/
def clientFields (c : Client) : List (String × Jv) :=
  [("client_id", .str c.client_id),
   ("client_secret", .str c.client_secret),
   ("client_name", match c.client_name with | some s => .str s | none => .undef),
   ("redirect_uris", .arr c.redirect_uris),
   ("grant_types", .arr c.grant_types),
   ("response_types", .arr c.response_types),
   ("scope", .str c.scope),
   ("token_endpoint_auth_method", .str c.token_endpoint_auth_method),
   ("created_at", .num c.created_at)]

/-- The rest-spread `const { client_secret, ...clientInfo } = client`:
every field except `client_secret`, order preserved. -/
def clientInfoFields (c : Client) : List (String × Jv) :=
  (clientFields c).filter (fun kv => decide (kv.1 ≠ "client_secret"))

/-- Client-introspection outcome. -/
inductive ClientsResult where
  | notFound (status : Nat) (error : String)
  | ok (body : List (String × Jv))
deriving DecidableEq, Repr

/-- The clients handler: 404 for an unknown id, otherwise the record with
`client_secret` stripped. -/
def clientsHandler (st : ServerState) (clientId : String) : ClientsResult :=
  match mapGet st.oauthClients clientId with
  | none => .notFound 404 "Client not found"
  | some client => .ok (clientInfoFields client)

/-! ## Memory store (`MCPMemoryService.storeMemory` and
`POST /memory/store`, http-wrapper-oauth.js:244-265 and 605-615) -/

/-- A memory record (fallback mode).  Timestamps are the `Date.now()`
millisecond clock; `id` is `Date.now().toString()`. -/
structure Memory where
  id : String
  content : String
  metadata : List (String × String)
  tags : List String
  created_at : Nat
  updated_at : Nat
deriving DecidableEq, Repr

/-- The memory-service state: the fallback flag, the in-process
`this.memories` list and the JSON file `memories.json` that
`saveFallbackMemories` mirrors it to. -/
structure MemState where
  fallbackMode : Bool
  memories : List Memory
  savedFile : List Memory
deriving DecidableEq, Repr

/-- The store request body. -/
structure StoreReq where
  content : Option String
  metadata : Option (List (String × String))
  tags : Option (List String)

/-- `MCPMemoryService.storeMemory`: throws `Content is required` on falsy
content before anything else; in fallback mode appends the new record and
persists; otherwise `callMCPService` throws its not-implemented error. -/
def storeMemory (st : MemState) (req : StoreReq) (nowMs : Nat) :
    Except String Memory × MemState :=
  if !jsTruthy req.content then (.error "Content is required", st)
  else if st.fallbackMode then
    let memory : Memory :=
      { id := toString nowMs
        content := strOf req.content
        metadata := req.metadata.getD []
        tags := req.tags.getD []
        created_at := nowMs
        updated_at := nowMs }
    (.ok memory,
      { st with memories := st.memories ++ [memory],
                savedFile := st.memories ++ [memory] })
  else (.error "MCP Service integration not yet implemented", st)

/-- The `POST /memory/store` response body. -/
inductive StoreBody where
  | success (memory_id : String) (memory : Memory)
  | err (error : String)
deriving DecidableEq, Repr

/-- The `/memory/store` route: a `storeMemory` throw is caught and mapped
to `res.status(500).json({ error: error.message })`; success answers 200
with `{ success: true, memory_id, memory }`. -/
def storeRoute (st : MemState) (req : StoreReq) (nowMs : Nat) :
    (Nat × StoreBody) × MemState :=
  match storeMemory st req nowMs with
  | (.ok memory, st') => ((200, .success memory.id memory), st')
  | (.error msg, st') => ((500, .err msg), st')

/-! ## A concrete model of the host primitives

`modelPrims` below is one concrete, executable instantiation of `Prims`
satisfying `PrimsOK`; it exists so that theorems whose hypotheses mention
`PrimsOK` can be evaluated on concrete inputs.  It replaces base64url with
a dot-free escaping (`escB64`) and the keyed hash with an injective
pairing of secret and message — sufficient for the structural contracts in
`PrimsOK`, which are all the wrapper relies on. -/

/-- Dot-free invertible encoding standing in for base64url: `.` and the
escape letter `A` are escaped, every other character is kept. -/
def escB64 : List Char → List Char
  | [] => []
  | c :: cs =>
    (if c = '.' then ['A', 'd'] else if c = 'A' then ['A', 'a'] else [c]) ++ escB64 cs

/-- Inverse of `escB64`. -/
def unescB64 : List Char → List Char
  | [] => []
  | [c] => [c]
  | c1 :: c2 :: cs =>
    if c1 = 'A' ∧ c2 = 'a' then 'A' :: unescB64 cs
    else if c1 = 'A' ∧ c2 = 'd' then '.' :: unescB64 cs
    else c1 :: unescB64 (c2 :: cs)

/-- Hash-sign-free invertible encoding used for the model's payload
serialization fields: `#` and the escape letter `E` are escaped. -/
def escH : List Char → List Char
  | [] => []
  | c :: cs =>
    (if c = '#' then ['E', 'h'] else if c = 'E' then ['E', 'e'] else [c]) ++ escH cs

/-- Inverse of `escH`. -/
def unescH : List Char → List Char
  | [] => []
  | [c] => [c]
  | c1 :: c2 :: cs =>
    if c1 = 'E' ∧ c2 = 'e' then 'E' :: unescH cs
    else if c1 = 'E' ∧ c2 = 'h' then '#' :: unescH cs
    else c1 :: unescH (c2 :: cs)

/-- Unary encoding of a natural, `#`-free. -/
def natEnc (n : Nat) : List Char := List.replicate n 'I'

/-- Inverse of `natEnc`. -/
def natDec (l : List Char) : Option Nat :=
  if l.all (fun c => c = 'I') then some l.length else none

/-- Encoding of an optional string field. -/
def optStrEnc : Option String → List Char
  | none => ['n']
  | some s => 's' :: escH s.data

/-- Inverse of `optStrEnc`. -/
def optStrDec : List Char → Option (Option String)
  | ['n'] => some none
  | 's' :: rest => some (some (String.mk (unescH rest)))
  | _ => none

/-- Encoding of an optional natural field. -/
def optNatEnc : Option Nat → List Char
  | none => ['n']
  | some n => 's' :: natEnc n

/-- Inverse of `optNatEnc`. -/
def optNatDec : List Char → Option (Option Nat)
  | ['n'] => some none
  | 's' :: rest => (natDec rest).map some
  | _ => none

/-- The model's payload serialization: the five fields, `#`-separated,
each in a `#`-free encoding. -/
def modelStringify (p : Payload) : String :=
  String.mk (escH p.client_id.data ++ ('#' :: (optStrEnc p.scope ++
    ('#' :: (natEnc p.iat ++ ('#' :: (optNatEnc p.exp ++
    ('#' :: escH p.sub.data))))))))

/-- The model's payload parser, inverse of `modelStringify`. -/
def modelParse (s : String) : Option Payload :=
  match splitOnCh '#' s.data with
  | [f1, f2, f3, f4, f5] =>
    match optStrDec f2, natDec f3, optNatDec f4 with
    | some scope, some iat, some exp =>
      some { client_id := String.mk (unescH f1), scope := scope, iat := iat,
             exp := exp, sub := String.mk (unescH f5) }
    | _, _, _ => none
  | _ => none

/-- The model keyed hash: a dot-free injective pairing of secret and
message. -/
def modelHmac (secret msg : String) : String :=
  String.mk (escB64 (secret ++ "#" ++ msg).data)

/-- The concrete `Prims` instantiation. -/
def modelPrims : Prims :=
  { hmacB64 := modelHmac
    b64 := fun s => String.mk (escB64 s.data)
    unb64 := fun s => String.mk (unescB64 s.data)
    stringifyPayload := modelStringify
    parsePayload := modelParse }

/-- `s.startsWith(p)` for ASCII prefixes. -/
def jsStartsWith (s p : String) : Bool :=
  p.data.isPrefixOf s.data

/-- Whether a token request would reach the token endpoint's
expiry-detection branch (grant type accepted, code present in the store,
and past its expiry): the one failure that mutates the code store. -/
def expiryDetected (st : ServerState) (req : TokenReq) (nowMs : Nat) : Bool :=
  (req.grant_type == some "authorization_code") &&
    match req.code with
    | none => false
    | some c =>
      match mapGet st.authorizationCodes c with
      | none => false
      | some d => decide (d.expires_at < nowMs)

/-! ## Concrete sample data (used to evaluate the theorems below on
closed inputs) -/

/-- A sample registered client. -/
def sampleClient : Client :=
  { client_id := "cid1"
    client_secret := "sec1"
    client_name := some "Test"
    redirect_uris := ["http://localhost:3000/callback"]
    grant_types := ["authorization_code"]
    response_types := ["code"]
    scope := "read write"
    token_endpoint_auth_method := "client_secret_basic"
    created_at := 0 }

/-- A sample pending grant, expiring at t = 700000 ms. -/
def sampleGrant : AuthCodeData :=
  { client_id := some "cid1"
    redirect_uri := some "http://localhost:3000/callback"
    scope := some "read write"
    expires_at := 700000 }

/-- A sample server state: one client, one pending code. -/
def sampleState : ServerState :=
  { oauthClients := [("cid1", sampleClient)]
    authorizationCodes := [("code1", sampleGrant)] }

/-- A well-formed token exchange request for `sampleState`. -/
def sampleTokenReq : TokenReq :=
  { grant_type := some "authorization_code"
    code := some "code1"
    redirect_uri := some "http://localhost:3000/callback"
    client_id := some "cid1"
    client_secret := some "sec1" }

/-- A well-formed authorize request for `sampleState`. -/
def sampleAuthorizeReq : AuthorizeReq :=
  { client_id := some "cid1"
    response_type := some "code"
    redirect_uri := some "http://localhost:3000/callback"
    scope := some "read write"
    state := some "st8" }

/-- A sample middleware configuration with OAuth enabled and no API
key. -/
def sampleOAuthCfg : AuthConfig :=
  { oauthEnabled := true, authEnabled := false, apiKey := none, secret := "alpha" }

/-- A sample middleware configuration with nothing enabled. -/
def sampleNoAuthCfg : AuthConfig :=
  { oauthEnabled := false, authEnabled := false, apiKey := none, secret := "alpha" }

/-- A sample payload without an `exp` claim. -/
def samplePayloadNoExp : Payload :=
  { client_id := "cid1", scope := some "read", iat := 5, exp := none, sub := "cid1" }

/-- A sample payload carrying all claims. -/
def samplePayload : Payload :=
  { client_id := "cid1", scope := some "read write", iat := 5,
    exp := some 3605, sub := "cid1" }

/-! ## Helper lemmas: strings and splitting -/

theorem strData_append (a b : String) : (a ++ b).data = a.data ++ b.data := by
  cases a; cases b; rfl

theorem strMk_data (s : String) : String.mk s.data = s := rfl

theorem splitOnCh_no_sep (sep : Char) (l : List Char) (h : sep ∉ l) :
    splitOnCh sep l = [l] := by
  induction l with
  | nil => rfl
  | cons c cs ih =>
    have hc : ¬ c = sep := fun e => h (e ▸ List.mem_cons_self c cs)
    have hcs : sep ∉ cs := fun m => h (List.mem_cons_of_mem c m)
    simp [splitOnCh, hc, ih hcs]

theorem splitOnCh_sep_append (sep : Char) (a rest : List Char) (ha : sep ∉ a) :
    splitOnCh sep (a ++ sep :: rest) = a :: splitOnCh sep rest := by
  induction a with
  | nil => simp [splitOnCh]
  | cons c cs ih =>
    have hc : ¬ c = sep := fun e => ha (e ▸ List.mem_cons_self c cs)
    have hcs : sep ∉ cs := fun m => ha (List.mem_cons_of_mem c m)
    have := ih hcs
    simp [splitOnCh, hc, this]

/-- A token built as `A.B.C` from dot-free parts splits back into exactly
those three parts. -/
theorem jsSplitDots_three (A B C : String)
    (hA : '.' ∉ A.data) (hB : '.' ∉ B.data) (hC : '.' ∉ C.data) :
    jsSplitDots (A ++ "." ++ B ++ "." ++ C) = [A, B, C] := by
  have hdata : (A ++ "." ++ B ++ "." ++ C).data =
      A.data ++ '.' :: (B.data ++ '.' :: C.data) := by
    simp [strData_append]
  rw [jsSplitDots, hdata, splitOnCh_sep_append _ _ _ hA,
    splitOnCh_sep_append _ _ _ hB, splitOnCh_no_sep _ _ hC]
  simp [strMk_data]

/-- Decoding an encoded token with the signing secret recovers the
payload. -/
theorem jwtDecode_jwtEncode (pr : Prims) (hpr : PrimsOK pr) (secret : String)
    (p : Payload) :
    jwtDecode pr secret (jwtEncode pr secret p) = .ok p := by
  rw [jwtEncode, jwtDecode,
    jsSplitDots_three _ _ _ (hpr.b64_no_dot _) (hpr.b64_no_dot _) (hpr.hmac_no_dot _ _)]
  simp [hpr.unb64_b64, hpr.parse_stringify]

/-- Decoding an encoded token under a secret whose keyed hash differs from
the signing secret's on every message fails with a signature error. -/
theorem jwtDecode_wrongSecret (pr : Prims) (hpr : PrimsOK pr)
    (s s' : String) (p : Payload)
    (hne : ∀ m, pr.hmacB64 s' m ≠ pr.hmacB64 s m) :
    jwtDecode pr s' (jwtEncode pr s p) = .error .invalidSignature := by
  rw [jwtEncode, jwtDecode,
    jsSplitDots_three _ _ _ (hpr.b64_no_dot _) (hpr.b64_no_dot _) (hpr.hmac_no_dot _ _)]
  simp [(hne _).symm]

/-! ## Helper lemmas: middleware plumbing -/

theorem isPrefixOf_append_self (l r : List Char) : l.isPrefixOf (l ++ r) = true := by
  induction l with
  | nil => simp [List.isPrefixOf]
  | cons c cs ih => simp [List.isPrefixOf, ih]

theorem startsWithBearer_append (t : String) :
    startsWithBearer ("Bearer " ++ t) = true := by
  rw [startsWithBearer, strData_append]
  exact isPrefixOf_append_self _ _

theorem bearerToken_append (t : String) : bearerToken ("Bearer " ++ t) = t := by
  rw [bearerToken, strData_append]
  show String.mk (List.drop 7 ("Bearer ".data ++ t.data)) = t
  have : List.drop 7 ("Bearer ".data ++ t.data) = t.data := by
    simp [List.drop_succ_cons, show "Bearer ".data =
      ['B', 'e', 'a', 'r', 'e', 'r', ' '] from rfl]
  rw [this, strMk_data]

theorem bearerHeader_truthy (t : String) : jsTruthy (some ("Bearer " ++ t)) = true := by
  simp only [jsTruthy, decide_eq_true_eq]
  intro h
  have : ("Bearer " ++ t).data = [] := by rw [h]
  rw [strData_append] at this
  simp [show "Bearer ".data = ['B', 'e', 'a', 'r', 'e', 'r', ' '] from rfl] at this

/-! ## Helper lemmas: the concrete primitive model satisfies `PrimsOK` -/

theorem strExt (a b : String) (h : a.data = b.data) : a = b := by
  cases a; cases b; exact congrArg String.mk h

theorem escB64_no_dot (l : List Char) : '.' ∉ escB64 l := by
  induction l with
  | nil => simp [escB64]
  | cons c cs ih =>
    intro hmem
    by_cases h1 : c = '.'
    · simp [escB64, h1] at hmem
      exact ih hmem
    · by_cases h2 : c = 'A'
      · simp [escB64, h1, h2] at hmem
        exact ih hmem
      · simp [escB64, h1, h2] at hmem
        rcases hmem with h | h
        · exact h1 h.symm
        · exact ih h

theorem unescB64_escB64 (l : List Char) : unescB64 (escB64 l) = l := by
  induction l with
  | nil => rfl
  | cons c cs ih =>
    by_cases h1 : c = '.'
    · subst h1
      simp [escB64, unescB64, ih]
    · by_cases h2 : c = 'A'
      · subst h2
        simp [escB64, h1, unescB64, ih]
      · rw [show escB64 (c :: cs) = c :: escB64 cs from by simp [escB64, h1, h2]]
        cases hcs : escB64 cs with
        | nil =>
          rw [hcs] at ih
          simp [unescB64, ← ih]
        | cons d ds =>
          rw [hcs] at ih
          simp [unescB64, h2, ih]

theorem escH_no_hash (l : List Char) : '#' ∉ escH l := by
  induction l with
  | nil => simp [escH]
  | cons c cs ih =>
    intro hmem
    by_cases h1 : c = '#'
    · simp [escH, h1] at hmem
      exact ih hmem
    · by_cases h2 : c = 'E'
      · simp [escH, h1, h2] at hmem
        exact ih hmem
      · simp [escH, h1, h2] at hmem
        rcases hmem with h | h
        · exact h1 h.symm
        · exact ih h

theorem unescH_escH (l : List Char) : unescH (escH l) = l := by
  induction l with
  | nil => rfl
  | cons c cs ih =>
    by_cases h1 : c = '#'
    · subst h1
      simp [escH, unescH, ih]
    · by_cases h2 : c = 'E'
      · subst h2
        simp [escH, h1, unescH, ih]
      · rw [show escH (c :: cs) = c :: escH cs from by simp [escH, h1, h2]]
        cases hcs : escH cs with
        | nil =>
          rw [hcs] at ih
          simp [unescH, ← ih]
        | cons d ds =>
          rw [hcs] at ih
          simp [unescH, h2, ih]

theorem natEnc_no_hash (n : Nat) : '#' ∉ natEnc n := by
  simp [natEnc, List.mem_replicate]

theorem natDec_natEnc (n : Nat) : natDec (natEnc n) = some n := by
  have hall : (natEnc n).all (fun c => c = 'I') = true := by
    simp [natEnc, List.all_eq_true, List.mem_replicate]
  simp [natDec, hall, natEnc]

theorem optStrEnc_no_hash (o : Option String) : '#' ∉ optStrEnc o := by
  cases o with
  | none => simp [optStrEnc]
  | some s =>
    intro hmem
    simp [optStrEnc] at hmem
    exact escH_no_hash _ hmem

theorem optStrDec_optStrEnc (o : Option String) :
    optStrDec (optStrEnc o) = some o := by
  cases o with
  | none => rfl
  | some s => simp [optStrEnc, optStrDec, unescH_escH, strMk_data]

theorem optNatEnc_no_hash (o : Option Nat) : '#' ∉ optNatEnc o := by
  cases o with
  | none => simp [optNatEnc]
  | some n =>
    intro hmem
    simp [optNatEnc] at hmem
    exact natEnc_no_hash _ hmem

theorem optNatDec_optNatEnc (o : Option Nat) :
    optNatDec (optNatEnc o) = some o := by
  cases o with
  | none => rfl
  | some n => simp [optNatEnc, optNatDec, natDec_natEnc]

theorem modelParse_modelStringify (p : Payload) :
    modelParse (modelStringify p) = some p := by
  cases p with
  | mk cid scope iat exp sub =>
    have hsplit : splitOnCh '#' (modelStringify ⟨cid, scope, iat, exp, sub⟩).data =
        [escH cid.data, optStrEnc scope, natEnc iat, optNatEnc exp, escH sub.data] := by
      show splitOnCh '#' (escH cid.data ++ ('#' :: (optStrEnc scope ++
        ('#' :: (natEnc iat ++ ('#' :: (optNatEnc exp ++
        ('#' :: escH sub.data)))))))) = _
      rw [splitOnCh_sep_append _ _ _ (escH_no_hash _),
        splitOnCh_sep_append _ _ _ (optStrEnc_no_hash _),
        splitOnCh_sep_append _ _ _ (natEnc_no_hash _),
        splitOnCh_sep_append _ _ _ (optNatEnc_no_hash _),
        splitOnCh_no_sep _ _ (escH_no_hash _)]
    simp [modelParse, hsplit, optStrDec_optStrEnc, natDec_natEnc,
      optNatDec_optNatEnc, unescH_escH, strMk_data]

/-- The concrete model satisfies every contract the wrapper relies on. -/
theorem modelPrimsOK : PrimsOK modelPrims where
  b64_no_dot := fun _ => escB64_no_dot _
  hmac_no_dot := fun _ _ => escB64_no_dot _
  unb64_b64 := fun s => by
    show String.mk (unescB64 (String.mk (escB64 s.data)).data) = s
    rw [show (String.mk (escB64 s.data)).data = escB64 s.data from rfl,
      unescB64_escB64, strMk_data]
  parse_stringify := modelParse_modelStringify

/-- In the model, distinct secrets produce distinct keyed hashes of every
message. -/
theorem modelHmac_ne (k k' : String) (hkk : k ≠ k') (m : String) :
    modelHmac k m ≠ modelHmac k' m := by
  intro he
  apply hkk
  have hdata : escB64 (k ++ "#" ++ m).data = escB64 (k' ++ "#" ++ m).data :=
    congrArg String.data he
  have hun := congrArg unescB64 hdata
  rw [unescB64_escB64, unescB64_escB64] at hun
  rw [strData_append, strData_append, strData_append, strData_append] at hun
  have h1 : k.data ++ "#".data = k'.data ++ "#".data := List.append_cancel_right hun
  have h2 : k.data = k'.data := List.append_cancel_right h1
  exact strExt _ _ h2

/-! ## Helper lemmas: maps and token shape -/

theorem mapGet_mapDelete {α : Type} (m : List (String × α)) (k : String) :
    mapGet (mapDelete m k) k = none := by
  induction m with
  | nil => rfl
  | cons kv rest ih =>
    obtain ⟨k', v⟩ := kv
    by_cases h : k' = k
    · simpa [mapDelete, List.filter_cons, h] using ih
    · simpa [mapDelete, List.filter_cons, h, mapGet] using ih

/-- An encoded token has exactly 3 dot-separated segments. -/
theorem jwtEncode_segments (pr : Prims) (hpr : PrimsOK pr) (secret : String)
    (p : Payload) : (jsSplitDots (jwtEncode pr secret p)).length = 3 := by
  rw [jwtEncode, jsSplitDots_three _ _ _ (hpr.b64_no_dot _) (hpr.b64_no_dot _)
    (hpr.hmac_no_dot _ _)]
  rfl

/-! ## The claims -/

/-- C2: for every payload, decoding the encoded token with the signing
secret returns the original payload unchanged (the round-trip law; the
decoder never looks at `exp`, so in particular decoding before `exp`
succeeds), and decoding it under a different secret — one whose keyed hash
differs from the signing secret's, as distinct HMAC keys do — fails with a
signature error.  The hypotheses `hpr`/`hne` are the host-crypto contracts
(base64url/JSON round-trips, dot-free digests, key separation) that the
hand-rolled codec delegates to Node's `crypto`/`Buffer`/`JSON`. -/
theorem C2_token_codec_roundtrip (pr : Prims) (hpr : PrimsOK pr)
    (secret otherSecret : String) (p : Payload)
    (hne : ∀ m, pr.hmacB64 otherSecret m ≠ pr.hmacB64 secret m) :
    jwtDecode pr secret (jwtEncode pr secret p) = .ok p ∧
    jwtDecode pr otherSecret (jwtEncode pr secret p) = .error .invalidSignature :=
  ⟨jwtDecode_jwtEncode pr hpr secret p,
   jwtDecode_wrongSecret pr hpr secret otherSecret p hne⟩

/-- C2 witness: the round-trip and the wrong-secret failure, evaluated on
a concrete payload under the concrete primitive model. -/
theorem C2_token_codec_roundtrip_witness :
    jwtDecode modelPrims "alpha" (jwtEncode modelPrims "alpha" samplePayload) =
      .ok samplePayload ∧
    jwtDecode modelPrims "beta" (jwtEncode modelPrims "alpha" samplePayload) =
      .error .invalidSignature :=
  C2_token_codec_roundtrip modelPrims modelPrimsOK "alpha" "beta" samplePayload
    (fun m => modelHmac_ne "beta" "alpha" (by decide) m)

/-- C10: a bearer token signed with the process secret whose payload has
no `exp` claim is accepted by the middleware at every time: the truthiness
test `payload.exp && ...` skips the expiry check, so the request proceeds
authenticated (`oauth`) with the claims attached — a signed token without
`exp` never expires. -/
theorem C10_no_exp_never_expires (pr : Prims) (hpr : PrimsOK pr)
    (cfg : AuthConfig) (hoauth : cfg.oauthEnabled = true)
    (p : Payload) (hexp : p.exp = none) (apiKeyHdr : Option String) (nowMs : Nat) :
    authenticate cfg pr
      { authorization := some ("Bearer " ++ jwtEncode pr cfg.secret p),
        xApiKey := apiKeyHdr } nowMs = .proceed (some p) (some "oauth") := by
  have hbear : bearerCond cfg
      { authorization := some ("Bearer " ++ jwtEncode pr cfg.secret p),
        xApiKey := apiKeyHdr } = true := by
    simp [bearerCond, hoauth, bearerHeader_truthy, startsWithBearer_append, strOf]
  rw [authenticate, if_pos hbear]
  simp only [strOf, bearerToken_append, jwtDecode_jwtEncode pr hpr cfg.secret p]
  simp [jsExpElapsed, hexp]

/-- C10 witness: a concrete `exp`-less token accepted at a large clock
value. -/
theorem C10_no_exp_never_expires_witness :
    authenticate sampleOAuthCfg modelPrims
      { authorization :=
          some ("Bearer " ++ jwtEncode modelPrims "alpha" samplePayloadNoExp),
        xApiKey := none } 999999999999 =
      .proceed (some samplePayloadNoExp) (some "oauth") :=
  C10_no_exp_never_expires modelPrims modelPrimsOK sampleOAuthCfg
    rfl samplePayloadNoExp rfl none 999999999999

/-- C4 counterexample: with OAuth disabled (and no API key configured), a
request carrying a Bearer header whose token fails to decode is *not*
rejected with 401 `invalid_token` — the middleware falls through to the
no-authentication branch and proceeds unauthenticated, contradicting the
claim's rule (1) as stated (which would decode every Bearer header). -/
theorem C4_counterexample :
    authenticate sampleNoAuthCfg modelPrims
      { authorization := some "Bearer zzz", xApiKey := none } 0 =
      .proceed none none ∧
    jwtDecode modelPrims "alpha" (bearerToken (strOf (some "Bearer zzz"))) =
      .error .invalidFormat := by
  exact ⟨rfl, rfl⟩

/-- C4 (amended): the middleware's decision table, in evaluation order —
(1) *with OAuth enabled* and a (truthy) `Bearer` Authorization header:
decode failure → 401 `Invalid token` (the claim's `invalid_token`); a
decoded payload with a truthy, elapsed `exp` → 401 `Token expired`
(`token_expired`); otherwise proceed with the claims attached and auth
method `oauth`; (2) else, with the API key gate enabled and an `X-API-Key`
header present: mismatch (including no configured key) → 401, match →
proceed as `api_key`; (3) else, with neither OAuth nor the API key
enabled, proceed unauthenticated; (4) else 401 `Authentication required`
(`authentication_required`). -/
theorem C4_auth_decision_table (pr : Prims) (cfg : AuthConfig)
    (hdrs : ReqHeaders) (nowMs : Nat) :
    (bearerCond cfg hdrs = true →
      (∀ e, jwtDecode pr cfg.secret (bearerToken (strOf hdrs.authorization)) =
          .error e →
        authenticate cfg pr hdrs nowMs = .reject 401 "Invalid token") ∧
      (∀ p, jwtDecode pr cfg.secret (bearerToken (strOf hdrs.authorization)) =
          .ok p →
        (jsExpElapsed p nowMs = true →
          authenticate cfg pr hdrs nowMs = .reject 401 "Token expired") ∧
        (jsExpElapsed p nowMs = false →
          authenticate cfg pr hdrs nowMs = .proceed (some p) (some "oauth")))) ∧
    (bearerCond cfg hdrs = false → apiKeyCond cfg hdrs = true →
      (apiKeyMatches cfg.apiKey (strOf hdrs.xApiKey) = true →
        authenticate cfg pr hdrs nowMs = .proceed none (some "api_key")) ∧
      (apiKeyMatches cfg.apiKey (strOf hdrs.xApiKey) = false →
        authenticate cfg pr hdrs nowMs = .reject 401 "Invalid API key")) ∧
    (bearerCond cfg hdrs = false → apiKeyCond cfg hdrs = false →
      cfg.authEnabled = false → cfg.oauthEnabled = false →
      authenticate cfg pr hdrs nowMs = .proceed none none) ∧
    (bearerCond cfg hdrs = false → apiKeyCond cfg hdrs = false →
      (cfg.authEnabled = true ∨ cfg.oauthEnabled = true) →
      authenticate cfg pr hdrs nowMs = .reject 401 "Authentication required") := by
  refine ⟨?_, ?_, ?_, ?_⟩
  · intro hb
    constructor
    · intro e he
      simp [authenticate, hb, he]
    · intro p hp
      constructor
      · intro hex
        simp [authenticate, hb, hp, hex]
      · intro hex
        simp [authenticate, hb, hp, hex]
  · intro hb ha
    constructor
    · intro hm
      simp [authenticate, hb, ha, hm]
    · intro hm
      simp [authenticate, hb, ha, hm]
  · intro hb ha hae hoe
    simp [authenticate, hb, ha, hae, hoe]
  · intro hb ha hor
    rcases hor with h | h
    · simp [authenticate, hb, ha, h]
    · simp [authenticate, hb, ha, h]

/-- C4 witness: a concrete decode-failure rejection through rule (1) with
OAuth enabled. -/
theorem C4_auth_decision_table_witness :
    authenticate sampleOAuthCfg modelPrims
      { authorization := some "Bearer zzz", xApiKey := none } 0 =
      .reject 401 "Invalid token" :=
  ((C4_auth_decision_table modelPrims sampleOAuthCfg
      { authorization := some "Bearer zzz", xApiKey := none } 0).1
    (by decide)).1 .invalidFormat rfl

/-- C1: authorization codes are single-use.  A token exchange meeting all
the success conditions deletes the code-store entry, and replaying the
same request against the resulting state fails with 400 `invalid_grant`;
expiry detection also deletes the entry (with `invalid_grant`); every
other outcome — wrong grant type, absent code, missing/unknown client,
wrong client secret — leaves the server state (in particular the
code-store entry) unchanged. -/
theorem C1_code_single_use (pr : Prims) (secret : String) (ttl : Nat)
    (st : ServerState) (req : TokenReq) (nowMs now2 : Nat) :
    (∀ c d cid client, req.grant_type = some "authorization_code" →
      req.code = some c → mapGet st.authorizationCodes c = some d →
      ¬ d.expires_at < nowMs → req.client_id = some cid →
      mapGet st.oauthClients cid = some client →
      req.client_secret = some client.client_secret →
      (tokenHandler pr secret ttl st req nowMs).2.authorizationCodes =
        mapDelete st.authorizationCodes c ∧
      (∃ resp, (tokenHandler pr secret ttl st req nowMs).1 = .ok resp) ∧
      (tokenHandler pr secret ttl (tokenHandler pr secret ttl st req nowMs).2
        req now2).1 = .err 400 "invalid_grant") ∧
    (∀ c d, req.grant_type = some "authorization_code" → req.code = some c →
      mapGet st.authorizationCodes c = some d → d.expires_at < nowMs →
      (tokenHandler pr secret ttl st req nowMs).1 = .err 400 "invalid_grant" ∧
      (tokenHandler pr secret ttl st req nowMs).2.authorizationCodes =
        mapDelete st.authorizationCodes c) ∧
    (req.grant_type ≠ some "authorization_code" →
      (tokenHandler pr secret ttl st req nowMs).2 = st) ∧
    (req.grant_type = some "authorization_code" → req.code = none →
      (tokenHandler pr secret ttl st req nowMs).2 = st) ∧
    (∀ c, req.grant_type = some "authorization_code" → req.code = some c →
      mapGet st.authorizationCodes c = none →
      (tokenHandler pr secret ttl st req nowMs).2 = st) ∧
    (∀ c d, req.grant_type = some "authorization_code" → req.code = some c →
      mapGet st.authorizationCodes c = some d → ¬ d.expires_at < nowMs →
      (req.client_id = none ∨
        (∃ cid, req.client_id = some cid ∧ mapGet st.oauthClients cid = none) ∨
        (∃ cid client, req.client_id = some cid ∧
          mapGet st.oauthClients cid = some client ∧
          req.client_secret ≠ some client.client_secret)) →
      (tokenHandler pr secret ttl st req nowMs).1 = .err 400 "invalid_client" ∧
      (tokenHandler pr secret ttl st req nowMs).2 = st) := by
  refine ⟨?_, ?_, ?_, ?_, ?_, ?_⟩
  · intro c d cid client hgt hc hd hex hcid hcl hsec
    have hrun : tokenHandler pr secret ttl st req nowMs =
        (.ok ⟨jwtEncode pr secret
            ⟨cid, d.scope, nowMs / 1000, some (nowMs / 1000 + ttl * 60), cid⟩,
          "Bearer", ttl * 60, d.scope⟩,
          { st with authorizationCodes := mapDelete st.authorizationCodes c }) := by
      simp [tokenHandler, hgt, hc, hd, hex, hcid, hcl, hsec]
    refine ⟨by rw [hrun], ⟨_, by rw [hrun]⟩, ?_⟩
    rw [hrun]
    simp [tokenHandler, hgt, hc, mapGet_mapDelete]
  · intro c d hgt hc hd hex
    constructor
    · simp [tokenHandler, hgt, hc, hd, hex]
    · simp [tokenHandler, hgt, hc, hd, hex]
  · intro hgt
    simp [tokenHandler, hgt]
  · intro hgt hc
    simp [tokenHandler, hgt, hc]
  · intro c hgt hc hd
    simp [tokenHandler, hgt, hc, hd]
  · intro c d hgt hc hd hex hbad
    rcases hbad with h | ⟨cid, hcid, hcl⟩ | ⟨cid, client, hcid, hcl, hsec⟩
    · constructor
      · simp [tokenHandler, hgt, hc, hd, hex, h]
      · simp [tokenHandler, hgt, hc, hd, hex, h]
    · constructor
      · simp [tokenHandler, hgt, hc, hd, hex, hcid, hcl]
      · simp [tokenHandler, hgt, hc, hd, hex, hcid, hcl]
    · constructor
      · simp [tokenHandler, hgt, hc, hd, hex, hcid, hcl, hsec]
      · simp [tokenHandler, hgt, hc, hd, hex, hcid, hcl, hsec]

/-- C1 witness: a concrete successful exchange deletes its code and the
replayed request answers 400 `invalid_grant`. -/
theorem C1_code_single_use_witness :
    (tokenHandler modelPrims "alpha" 60 sampleState sampleTokenReq 5000).2.authorizationCodes =
      mapDelete sampleState.authorizationCodes "code1" ∧
    (∃ resp, (tokenHandler modelPrims "alpha" 60 sampleState sampleTokenReq 5000).1 =
      .ok resp) ∧
    (tokenHandler modelPrims "alpha" 60
      (tokenHandler modelPrims "alpha" 60 sampleState sampleTokenReq 5000).2
      sampleTokenReq 9000).1 = .err 400 "invalid_grant" :=
  (C1_code_single_use modelPrims "alpha" 60 sampleState sampleTokenReq 5000 9000).1
    "code1" sampleGrant "cid1" sampleClient rfl rfl rfl (by decide) rfl rfl rfl

/-- C3: the token endpoint.  Wrong grant type → 400
`unsupported_grant_type`; absent or expired code → 400 `invalid_grant`;
client pair not matching the registry (missing id, unknown id, or wrong
secret) → 400 `invalid_client`, a check performed after the code has
already been validated; otherwise the response carries
`token_type = "Bearer"`, `expires_in = ttl·60` seconds, the grant's stored
scope, and an `access_token` of exactly 3 dot-separated segments whose
claims are `client_id`, the stored scope, `sub = client_id`,
`iat = ⌊now/1000⌋` and `exp = iat + ttl·60`. -/
theorem C3_token_endpoint (pr : Prims) (hpr : PrimsOK pr) (secret : String)
    (ttl : Nat) (st : ServerState) (req : TokenReq) (nowMs : Nat) :
    (req.grant_type ≠ some "authorization_code" →
      (tokenHandler pr secret ttl st req nowMs).1 =
        .err 400 "unsupported_grant_type") ∧
    (req.grant_type = some "authorization_code" → req.code = none →
      (tokenHandler pr secret ttl st req nowMs).1 = .err 400 "invalid_grant") ∧
    (∀ c, req.grant_type = some "authorization_code" → req.code = some c →
      mapGet st.authorizationCodes c = none →
      (tokenHandler pr secret ttl st req nowMs).1 = .err 400 "invalid_grant") ∧
    (∀ c d, req.grant_type = some "authorization_code" → req.code = some c →
      mapGet st.authorizationCodes c = some d → d.expires_at < nowMs →
      (tokenHandler pr secret ttl st req nowMs).1 = .err 400 "invalid_grant") ∧
    (∀ c d, req.grant_type = some "authorization_code" → req.code = some c →
      mapGet st.authorizationCodes c = some d → ¬ d.expires_at < nowMs →
      (req.client_id = none ∨
        (∃ cid, req.client_id = some cid ∧ mapGet st.oauthClients cid = none) ∨
        (∃ cid client, req.client_id = some cid ∧
          mapGet st.oauthClients cid = some client ∧
          req.client_secret ≠ some client.client_secret)) →
      (tokenHandler pr secret ttl st req nowMs).1 = .err 400 "invalid_client") ∧
    (∀ c d cid client, req.grant_type = some "authorization_code" →
      req.code = some c → mapGet st.authorizationCodes c = some d →
      ¬ d.expires_at < nowMs → req.client_id = some cid →
      mapGet st.oauthClients cid = some client →
      req.client_secret = some client.client_secret →
      (tokenHandler pr secret ttl st req nowMs).1 =
        .ok ⟨jwtEncode pr secret
            ⟨cid, d.scope, nowMs / 1000, some (nowMs / 1000 + ttl * 60), cid⟩,
          "Bearer", ttl * 60, d.scope⟩ ∧
      (jsSplitDots (jwtEncode pr secret
        ⟨cid, d.scope, nowMs / 1000, some (nowMs / 1000 + ttl * 60), cid⟩)).length = 3) := by
  refine ⟨?_, ?_, ?_, ?_, ?_, ?_⟩
  · intro hgt
    simp [tokenHandler, hgt]
  · intro hgt hc
    simp [tokenHandler, hgt, hc]
  · intro c hgt hc hd
    simp [tokenHandler, hgt, hc, hd]
  · intro c d hgt hc hd hex
    simp [tokenHandler, hgt, hc, hd, hex]
  · intro c d hgt hc hd hex hbad
    rcases hbad with h | ⟨cid, hcid, hcl⟩ | ⟨cid, client, hcid, hcl, hsec⟩
    · simp [tokenHandler, hgt, hc, hd, hex, h]
    · simp [tokenHandler, hgt, hc, hd, hex, hcid, hcl]
    · simp [tokenHandler, hgt, hc, hd, hex, hcid, hcl, hsec]
  · intro c d cid client hgt hc hd hex hcid hcl hsec
    constructor
    · simp [tokenHandler, hgt, hc, hd, hex, hcid, hcl, hsec]
    · exact jwtEncode_segments pr hpr secret _

/-- C3 witness: the full successful exchange on concrete data with a
60-minute TTL: `expires_in = 3600`, the grant's scope, and a 3-segment
token whose claims are `iat = 5`, `exp = 3605`, `sub = client_id`. -/
theorem C3_token_endpoint_witness :
    (tokenHandler modelPrims "alpha" 60 sampleState sampleTokenReq 5000).1 =
      .ok ⟨jwtEncode modelPrims "alpha" samplePayload, "Bearer", 3600,
        some "read write"⟩ ∧
    (jsSplitDots (jwtEncode modelPrims "alpha" samplePayload)).length = 3 :=
  (C3_token_endpoint modelPrims modelPrimsOK "alpha" 60 sampleState sampleTokenReq
    5000).2.2.2.2.2 "code1" sampleGrant "cid1" sampleClient rfl rfl rfl
    (by decide) rfl rfl rfl

/-- C5 (code bug): the authorize endpoint never compares the supplied
`redirect_uri` against the client's registered `redirect_uris`.  Here the
registered client only lists `http://localhost:3000/callback`, the request
supplies `http://evil.example/steal` — and a code is nonetheless issued,
stored, and delivered by redirect to that unregistered URI. -/
theorem C5_redirect_uri_not_validated :
    ("http://evil.example/steal" ∈ sampleClient.redirect_uris → False) ∧
    authorizeHandler sampleState
      ⟨some "cid1", some "code", some "http://evil.example/steal", none, none⟩
      5000 10 "code2" (fun _ => true) =
      (.redirect "http://evil.example/steal" [("code", "code2")],
        ⟨sampleState.oauthClients,
          mapSet sampleState.authorizationCodes "code2"
            ⟨some "cid1", some "http://evil.example/steal", none, 605000⟩⟩) := by
  exact ⟨by decide, rfl⟩

/-- C6: for every server state, an unknown client id answers 404, and a
registered client is answered with its record with `client_secret`
stripped — the response body never carries a `client_secret` field. -/
theorem C6_client_secret_stripped (st : ServerState) (clientId : String) :
    (mapGet st.oauthClients clientId = none →
      clientsHandler st clientId = .notFound 404 "Client not found") ∧
    (∀ c, mapGet st.oauthClients clientId = some c →
      clientsHandler st clientId = .ok (clientInfoFields c) ∧
      "client_secret" ∉ (clientInfoFields c).map Prod.fst ∧
      ∀ (v : Jv), ("client_secret", v) ∉ clientInfoFields c) := by
  constructor
  · intro h
    simp [clientsHandler, h]
  · intro c h
    refine ⟨by simp [clientsHandler, h], ?_, ?_⟩
    · simp [clientInfoFields, clientFields]
    · intro v
      simp [clientInfoFields, clientFields]

/-- C6 witness: the concrete sample client's introspection response and
the absence of its secret. -/
theorem C6_client_secret_stripped_witness :
    clientsHandler sampleState "cid1" = .ok (clientInfoFields sampleClient) ∧
    "client_secret" ∉ (clientInfoFields sampleClient).map Prod.fst ∧
    ∀ (v : Jv), ("client_secret", v) ∉ clientInfoFields sampleClient :=
  (C6_client_secret_stripped sampleState "cid1").2 sampleClient rfl

/-- C7 counterexample: a request from a registered client with
`response_type=code` but no `redirect_uri` is *not* answered with a
redirect — `new URL(undefined)` throws, the catch branch answers 400
`Invalid authorization request` — and the fresh code has nonetheless
already been stored.  This refutes the claim's "otherwise … the response
is an HTTP redirect to redirect_uri". -/
theorem C7_counterexample :
    authorizeHandler sampleState ⟨some "cid1", some "code", none, none, none⟩
      5000 10 "code3" (fun _ => true) =
      (.err 400 "Invalid authorization request",
        ⟨sampleState.oauthClients,
          mapSet sampleState.authorizationCodes "code3"
            ⟨some "cid1", none, none, 605000⟩⟩) := rfl

/-- C7 (amended): the authorize endpoint.  `response_type ≠ "code"` → 400
`unsupported_response_type`; a `client_id` that does not resolve (missing
or unregistered) → 400 `invalid_client`; otherwise a fresh code is stored
with expiry `now + codeTtlMin·60·1000` ms (the configured TTL, default 10
minutes), and then: when the supplied `redirect_uri` parses as a URL the
response is a redirect to it carrying `code` and — exactly when a
*nonempty* `state` was supplied — the original `state`; when
`redirect_uri` is absent or unparsable the response is 400
`Invalid authorization request`, with the code still stored. -/
theorem C7_authorize_endpoint (st : ServerState) (req : AuthorizeReq)
    (nowMs codeTtlMin : Nat) (codeHex : String) (urlOk : String → Bool) :
    (req.response_type ≠ some "code" →
      authorizeHandler st req nowMs codeTtlMin codeHex urlOk =
        (.err 400 "unsupported_response_type", st)) ∧
    (req.response_type = some "code" → req.client_id = none →
      authorizeHandler st req nowMs codeTtlMin codeHex urlOk =
        (.err 400 "invalid_client", st)) ∧
    (∀ cid, req.response_type = some "code" → req.client_id = some cid →
      mapGet st.oauthClients cid = none →
      authorizeHandler st req nowMs codeTtlMin codeHex urlOk =
        (.err 400 "invalid_client", st)) ∧
    (∀ cid c, req.response_type = some "code" → req.client_id = some cid →
      mapGet st.oauthClients cid = some c →
      (authorizeHandler st req nowMs codeTtlMin codeHex urlOk).2 =
        ⟨st.oauthClients, mapSet st.authorizationCodes codeHex
          ⟨req.client_id, req.redirect_uri, req.scope,
            nowMs + codeTtlMin * 60 * 1000⟩⟩ ∧
      (∀ uri, req.redirect_uri = some uri → urlOk uri = true →
        (authorizeHandler st req nowMs codeTtlMin codeHex urlOk).1 =
          .redirect uri ([("code", codeHex)] ++
            (if jsTruthy req.state then [("state", strOf req.state)] else []))) ∧
      ((req.redirect_uri = none ∨
          (∃ uri, req.redirect_uri = some uri ∧ urlOk uri = false)) →
        (authorizeHandler st req nowMs codeTtlMin codeHex urlOk).1 =
          .err 400 "Invalid authorization request")) := by
  refine ⟨?_, ?_, ?_, ?_⟩
  · intro hrt
    simp [authorizeHandler, hrt]
  · intro hrt hcid
    simp [authorizeHandler, hrt, hcid]
  · intro cid hrt hcid hcl
    simp [authorizeHandler, hrt, hcid, hcl]
  · intro cid c hrt hcid hcl
    refine ⟨?_, ?_, ?_⟩
    · cases huri : req.redirect_uri with
      | none => simp [authorizeHandler, hrt, hcid, hcl, huri]
      | some uri =>
        by_cases hok : urlOk uri
        · simp [authorizeHandler, hrt, hcid, hcl, huri, hok]
        · simp [authorizeHandler, hrt, hcid, hcl, huri, hok]
    · intro uri huri hok
      cases hstate : req.state with
      | none => simp [authorizeHandler, hrt, hcid, hcl, huri, hok, hstate, jsTruthy]
      | some s =>
        by_cases hs : s = ""
        · simp [authorizeHandler, hrt, hcid, hcl, huri, hok, hstate, jsTruthy, hs]
        · simp [authorizeHandler, hrt, hcid, hcl, huri, hok, hstate, jsTruthy, hs,
            strOf]
    · intro hbad
      rcases hbad with h | ⟨uri, huri, hok⟩
      · simp [authorizeHandler, hrt, hcid, hcl, h]
      · simp [authorizeHandler, hrt, hcid, hcl, huri, hok]

/-- C7 witness: a concrete authorize request with a parsable redirect URI
and a nonempty `state`: the code is stored with a 10-minute expiry and the
redirect carries both `code` and `state`. -/
theorem C7_authorize_endpoint_witness :
    (authorizeHandler sampleState sampleAuthorizeReq 5000 10 "code4"
      (fun _ => true)).2 =
      ⟨sampleState.oauthClients, mapSet sampleState.authorizationCodes "code4"
        ⟨some "cid1", some "http://localhost:3000/callback", some "read write",
          605000⟩⟩ ∧
    (authorizeHandler sampleState sampleAuthorizeReq 5000 10 "code4"
      (fun _ => true)).1 =
      .redirect "http://localhost:3000/callback"
        ([("code", "code4")] ++
          (if jsTruthy sampleAuthorizeReq.state then
            [("state", strOf sampleAuthorizeReq.state)] else [])) := by
  have h := (C7_authorize_endpoint sampleState sampleAuthorizeReq 5000 10 "code4"
    (fun _ => true)).2.2.2 "cid1" sampleClient rfl rfl rfl
  exact ⟨h.1, h.2.1 "http://localhost:3000/callback" rfl rfl⟩

/-- C8 counterexample: a registration request with *no* `client_name` is
not rejected — the handler has no failure path at all and still answers
with a freshly created record (here with `client_name` absent), refuting
the claim's "a request missing client_name is rejected". -/
theorem C8_counterexample :
    (registerHandler ⟨[], []⟩ ⟨none, none, none, none, none⟩ 0 "aa" "bb").1 =
      ⟨"mcp_client_aa", "bb", none, [], ["authorization_code"], ["code"],
        "read write", "client_secret_basic", 0⟩ := rfl

/-- C8 (amended): registration validates nothing at all — it always
succeeds, even without `client_name` — and the response carries the full
record: `client_id = "mcp_client_" ++ hex` (hence non-empty and starting
with the recognizable prefix `mcp_client_`), and the generated
`client_secret` verbatim (of nonzero length, as `randomBytes(16).hex`
is); the record is inserted into the registry under its `client_id`. -/
theorem C8_register_no_validation (st : ServerState) (req : RegisterReq)
    (nowMs : Nat) (idHex secretHex : String) (hsec : secretHex ≠ "") :
    (registerHandler st req nowMs idHex secretHex).1.client_id =
      "mcp_client_" ++ idHex ∧
    jsStartsWith (registerHandler st req nowMs idHex secretHex).1.client_id
      "mcp_client_" = true ∧
    (registerHandler st req nowMs idHex secretHex).1.client_id ≠ "" ∧
    (registerHandler st req nowMs idHex secretHex).1.client_secret = secretHex ∧
    (registerHandler st req nowMs idHex secretHex).1.client_secret ≠ "" ∧
    (registerHandler st req nowMs idHex secretHex).2.oauthClients =
      mapSet st.oauthClients ("mcp_client_" ++ idHex)
        (registerHandler st req nowMs idHex secretHex).1 := by
  refine ⟨rfl, ?_, ?_, rfl, hsec, rfl⟩
  · show jsStartsWith ("mcp_client_" ++ idHex) "mcp_client_" = true
    rw [jsStartsWith, strData_append]
    exact isPrefixOf_append_self _ _
  · show "mcp_client_" ++ idHex ≠ ""
    intro h
    have : ("mcp_client_" ++ idHex).data = [] := by rw [h]
    rw [strData_append] at this
    simp [show "mcp_client_".data =
      ['m', 'c', 'p', '_', 'c', 'l', 'i', 'e', 'n', 't', '_'] from rfl] at this

/-- C8 witness: a concrete registration (with a `client_name`) evaluated
through the amended theorem. -/
theorem C8_register_no_validation_witness :
    (registerHandler ⟨[], []⟩ ⟨some "Test",
        some ["http://localhost:3000/callback"], none, none, none⟩
      0 "aa" "bb").1.client_id = "mcp_client_aa" ∧
    jsStartsWith (registerHandler ⟨[], []⟩ ⟨some "Test",
        some ["http://localhost:3000/callback"], none, none, none⟩
      0 "aa" "bb").1.client_id "mcp_client_" = true ∧
    (registerHandler ⟨[], []⟩ ⟨some "Test",
        some ["http://localhost:3000/callback"], none, none, none⟩
      0 "aa" "bb").1.client_id ≠ "" ∧
    (registerHandler ⟨[], []⟩ ⟨some "Test",
        some ["http://localhost:3000/callback"], none, none, none⟩
      0 "aa" "bb").1.client_secret = "bb" ∧
    (registerHandler ⟨[], []⟩ ⟨some "Test",
        some ["http://localhost:3000/callback"], none, none, none⟩
      0 "aa" "bb").1.client_secret ≠ "" ∧
    (registerHandler ⟨[], []⟩ ⟨some "Test",
        some ["http://localhost:3000/callback"], none, none, none⟩
      0 "aa" "bb").2.oauthClients =
      mapSet [] ("mcp_client_" ++ "aa")
        (registerHandler ⟨[], []⟩ ⟨some "Test",
            some ["http://localhost:3000/callback"], none, none, none⟩
          0 "aa" "bb").1 :=
  C8_register_no_validation ⟨[], []⟩
    ⟨some "Test", some ["http://localhost:3000/callback"], none, none, none⟩
    0 "aa" "bb" (by decide)

/-- C9 (code bug): a store request with empty `content` is rejected
before any record is created — the memory list and the persisted file are
unchanged — but the route's catch-all maps the `Content is required`
throw to HTTP **500**, not the claimed 400 validation error (the repo's
own mock test server answers 400 on the same input). -/
theorem C9_store_empty_content (st : MemState)
    (metadata : Option (List (String × String))) (tags : Option (List String))
    (nowMs : Nat) :
    storeRoute st ⟨some "", metadata, tags⟩ nowMs =
      ((500, .err "Content is required"), st) := by
  simp [storeRoute, storeMemory, jsTruthy]

end McpOAuth
